import Mathlib

/-
Verification development for the PicoTagEditor widget.

The repository contains two near-duplicate implementations of the widget:
  * PicoTagEditor.js       — modelled below in namespace Main
  * the unnamed duplicate  — modelled below in namespace Alt

Each implementation is embedded as a pure state machine: the DOM state that the
widget manipulates (chip list, container display style, text-field value,
data-focus attribute, mouse flag, stored name) is a record, and every event
listener becomes a state-transformation function translated line by line from
the source. JavaScript strings are modelled as lists of characters.
-/

abbrev JsStr := List Char

def js (s : String) : JsStr := s.toList

/-- Whitespace characters removed by the JavaScript String trim method
(the common ASCII ones: space, tab, line feed, carriage return, vertical tab,
form feed). -/
def isJsWs (c : Char) : Bool :=
  c == ' ' || c == '\t' || c == '\n' || c == '\r' || c == '\x0b' || c == '\x0c'

/-- Model of the JavaScript value.trim() call: strip whitespace from both
ends. -/
def jsTrim (cs : JsStr) : JsStr :=
  ((cs.dropWhile isJsWs).reverse.dropWhile isJsWs).reverse

/-- Helper for isNumber: the optional fractional part of the regex, a dot
followed by one or more digits. -/
def fracPart : JsStr → Bool
  | '.' :: frac => !frac.isEmpty && frac.all Char.isDigit
  | _ => false

/-- Translation of this.isNumber from both implementations: the regex test
with pattern caret minus-sign-optional digits-plus optional dot digits-plus
dollar, applied to the string form of the value. -/
def isNumber (cs : JsStr) : Bool :=
  let body := if cs.head? = some '-' then cs.tail else cs
  let ip := body.takeWhile Char.isDigit
  let rest := body.dropWhile Char.isDigit
  !ip.isEmpty && (rest.isEmpty || fracPart rest)

/-- Decimal printing of a natural number, most significant digit first,
with explicit fuel so that it is structurally recursive. -/
def natToStrAux : Nat → Nat → JsStr
  | 0, _ => []
  | fuel + 1, n =>
    if n < 10 then [Nat.digitChar n]
    else natToStrAux fuel (n / 10) ++ [Nat.digitChar (n % 10)]

/-- Decimal string form of a natural number, as produced by the JavaScript
number-to-string coercion on integer values. -/
def natToStr (n : Nat) : JsStr := natToStrAux (n + 1) n

/-- Decimal string form of an integer, as produced by the JavaScript
number-to-string coercion on integer values. -/
def intToStr (i : Int) : JsStr :=
  if i < 0 then '-' :: natToStr i.natAbs else natToStr i.toNat

/-- The JavaScript values a dimension option (width, height, maxHeight) can
hold: undefined, an integer number, or a string. -/
inductive JsVal where
  | undef : JsVal
  | num : Int → JsVal
  | str : JsStr → JsVal
deriving DecidableEq

/-- String coercion of a JsVal, as applied by the template literal and by the
regex test in the source. -/
def JsVal.toStr : JsVal → JsStr
  | .undef => js "undefined"
  | .num n => intToStr n
  | .str s => s

/-- JavaScript truthiness of a JsVal: undefined and 0 and the empty string are
falsy, everything else is truthy. -/
def JsVal.truthy : JsVal → Bool
  | .undef => false
  | .num n => n != 0
  | .str s => !s.isEmpty

/-- The settings record built in the constructor: defaults merged with the
caller options. -/
structure Settings where
  debug : Bool
  width : JsVal
  height : JsVal
  maxHeight : JsVal
  trimInput : Bool
deriving DecidableEq

/-- The default settings of the constructor: debug false, no dimensions,
trimInput false. -/
def defSettings : Settings :=
  { debug := false, width := .undef, height := .undef, maxHeight := .undef,
    trimInput := false }

/-- One chip in the tags container. The hidden input element is a child of
the chip div in the produced markup, so it is bundled with the chip here:
removing the chip removes its hidden field with it. -/
structure Tag where
  text : JsStr
  hiddenName : JsStr
  hiddenValue : JsStr
deriving DecidableEq

/-- The DOM state a widget instance manipulates. tagsDisplay is the inline
display style of the tags container (the string none, or the empty string for
visible). dataFocus is the data-focus attribute of the wrapper, none while the
attribute has never been set. name is the instance field this.name used for
hidden-field names. inputName is the name attribute carried by the visible
text field itself. -/
structure WidgetState where
  tags : List Tag
  tagsDisplay : JsStr
  styleWidth : Option JsStr
  styleHeight : Option JsStr
  styleMaxHeight : Option JsStr
  inputValue : JsStr
  dataFocus : Option JsStr
  mouseEnter : Bool
  focused : Bool
  name : JsStr
  inputName : JsStr
deriving DecidableEq

/-- The user-interface events the widget listens to. setInput models the
browser updating the field value as the user types; removeClick i models a
click on the remove control of the chip currently at position i. -/
inductive Event where
  | keypress : JsStr → Event
  | setInput : JsStr → Event
  | focusEv : Event
  | blurEv : Event
  | mouseenterEv : Event
  | mouseleaveEv : Event
  | removeClick : Nat → Event

namespace Main

/-- Translation of the dimension application in init of PicoTagEditor.js:
the style is set only when the setting is truthy, and gets px appended exactly
when the regex test accepts the string form of the value. -/
def applyDim (v : JsVal) : Option JsStr :=
  if v.truthy then
    some (if isNumber v.toStr then v.toStr ++ js "px" else v.toStr)
  else none

/-- Translation of init in PicoTagEditor.js: the original input is cloned (so
the text field keeps its name attribute srcName and its value srcValue), the
tags container starts hidden, and dimensions are applied per applyDim. The
constructor initialises this.name to the empty string and init never assigns
it, so the state field name is the empty string regardless of srcName. -/
def init (st : Settings) (srcName srcValue : JsStr) : WidgetState :=
  { tags := []
    tagsDisplay := js "none"
    styleWidth := applyDim st.width
    styleHeight := applyDim st.height
    styleMaxHeight := applyDim st.maxHeight
    inputValue := srcValue
    dataFocus := none
    mouseEnter := false
    focused := false
    name := []
    inputName := srcName }

/-- Translation of the name adjustment in addTag of PicoTagEditor.js: append
the bracket pair unless the name already contains an opening bracket
character. -/
def mkHiddenName (name : JsStr) : JsStr :=
  if name.contains '[' then name else name ++ js "[]"

/-- Translation of addTag in PicoTagEditor.js: append one chip holding the
tag text, a hidden input named per mkHiddenName with the tag text as value,
and make the tags container visible. -/
def addTag (s : WidgetState) (name tagText : JsStr) : WidgetState :=
  { s with
    tags := s.tags ++
      [{ text := tagText, hiddenName := mkHiddenName name,
         hiddenValue := tagText }]
    tagsDisplay := [] }

/-- Translation of the keypress listener in addEvents of PicoTagEditor.js:
on Enter with a value whose trim is nonempty, the value (trimmed when the
trimInput setting is on) is committed via addTag with the stored this.name,
then the field is cleared. -/
def keypressHandler (st : Settings) (s : WidgetState) (key : JsStr) :
    WidgetState :=
  if key = js "Enter" ∧ jsTrim s.inputValue ≠ [] then
    let value := if st.trimInput then jsTrim s.inputValue else s.inputValue
    let s1 := addTag s s.name value
    { s1 with inputValue := [] }
  else s

/-- Translation of the remove-control click listener in addTag of
PicoTagEditor.js: remove the chip, refocus the text field (which fires the
focus listener, setting the data-focus attribute), and hide the tags
container when no chip remains. -/
def removeHandler (s : WidgetState) (i : Nat) : WidgetState :=
  let tags1 := s.tags.eraseIdx i
  { s with
    tags := tags1
    focused := true
    dataFocus := some (js "true")
    tagsDisplay := if tags1.isEmpty then js "none" else s.tagsDisplay }

/-- One step of the Main widget state machine: dispatch an event to the
listener translated from PicoTagEditor.js. A removeClick is only meaningful
for a chip that is present. -/
def step (st : Settings) (s : WidgetState) : Event → WidgetState
  | .keypress k => keypressHandler st s k
  | .setInput v => { s with inputValue := v }
  | .focusEv => { s with focused := true, dataFocus := some (js "true") }
  | .blurEv =>
      { s with focused := false
               dataFocus := some (if st.debug || s.mouseEnter
                                  then js "true" else js "false") }
  | .mouseenterEv => { s with mouseEnter := true }
  | .mouseleaveEv => { s with mouseEnter := false }
  | .removeClick i => if i < s.tags.length then removeHandler s i else s

/-- Run the Main widget from construction through a sequence of events. -/
def run (st : Settings) (srcName srcValue : JsStr) (es : List Event) :
    WidgetState :=
  es.foldl (step st) (init st srcName srcValue)

/-- Control flow of addEvents in PicoTagEditor.js on the result of the
querySelector for the text field: the guard returns early when the field is
absent, so listeners are attached (result true) exactly when it is found, and
no error is raised either way. -/
def addEvents (inputFieldFound : Bool) : Except Unit Bool :=
  if inputFieldFound then Except.ok true else Except.ok false

end Main

namespace Alt

/-- Translation of the dimension application in init of the unnamed
duplicate implementation: the style is set whenever the setting is not
undefined (so also for 0 and the empty string), and px is appended exactly
when the regex test accepts the string form of the value. -/
def applyDim (v : JsVal) : Option JsStr :=
  match v with
  | .undef => none
  | .num n => some (if isNumber (intToStr n) then intToStr n ++ js "px"
                    else intToStr n)
  | .str cs => some (if isNumber cs then cs ++ js "px" else cs)

/-- Translation of init in the unnamed duplicate implementation: a fresh text
input is created (copying type, id, class and placeholder but not the name
attribute, and with an empty value), the source name attribute is stored in
this.name, the tags container starts hidden, and dimensions are applied per
applyDim. -/
def init (st : Settings) (srcName : JsStr) : WidgetState :=
  { tags := []
    tagsDisplay := js "none"
    styleWidth := applyDim st.width
    styleHeight := applyDim st.height
    styleMaxHeight := applyDim st.maxHeight
    inputValue := []
    dataFocus := none
    mouseEnter := false
    focused := false
    name := srcName
    inputName := [] }

/-- Translation of addTag in the unnamed duplicate implementation: append one
chip holding the tag text and a hidden input whose name is the given name
with the bracket pair appended unconditionally, and make the tags container
visible. -/
def addTag (s : WidgetState) (name tagText : JsStr) : WidgetState :=
  { s with
    tags := s.tags ++
      [{ text := tagText, hiddenName := name ++ js "[]",
         hiddenValue := tagText }]
    tagsDisplay := [] }

/-- Translation of the keypress listener in addEvent of the unnamed duplicate
implementation: on Enter with a value whose trim is nonempty, the raw field
value is committed via addTag with the stored this.name, then the field is
cleared. No trimming is applied to the committed value, and the settings are
not consulted at all. -/
def keypressHandler (_st : Settings) (s : WidgetState) (key : JsStr) :
    WidgetState :=
  if key = js "Enter" ∧ jsTrim s.inputValue ≠ [] then
    let s1 := addTag s s.name s.inputValue
    { s1 with inputValue := [] }
  else s

/-- Translation of the remove-control click listener in addTag of the unnamed
duplicate implementation: remove the chip, refocus the text field, and hide
the tags container when no chip remains. -/
def removeHandler (s : WidgetState) (i : Nat) : WidgetState :=
  let tags1 := s.tags.eraseIdx i
  { s with
    tags := tags1
    focused := true
    dataFocus := some (js "true")
    tagsDisplay := if tags1.isEmpty then js "none" else s.tagsDisplay }

/-- One step of the Alt widget state machine: dispatch an event to the
listener translated from the unnamed duplicate implementation. -/
def step (st : Settings) (s : WidgetState) : Event → WidgetState
  | .keypress k => keypressHandler st s k
  | .setInput v => { s with inputValue := v }
  | .focusEv => { s with focused := true, dataFocus := some (js "true") }
  | .blurEv =>
      { s with focused := false
               dataFocus := some (if st.debug || s.mouseEnter
                                  then js "true" else js "false") }
  | .mouseenterEv => { s with mouseEnter := true }
  | .mouseleaveEv => { s with mouseEnter := false }
  | .removeClick i => if i < s.tags.length then removeHandler s i else s

/-- Run the Alt widget from construction through a sequence of events. -/
def run (st : Settings) (srcName : JsStr) (es : List Event) : WidgetState :=
  es.foldl (step st) (init st srcName)

/-- Control flow of addEvent in the unnamed duplicate implementation on the
result of the querySelector for the text field: addEventListener is called on
the query result without a guard, so a missing field raises a TypeError
instead of returning. -/
def addEvent (inputFieldFound : Bool) : Except Unit Bool :=
  if inputFieldFound then Except.ok true else Except.error ()

end Alt

example : jsTrim (js " red ") = js "red" := by decide
example : natToStr 120 = js "120" := by decide
example : intToStr (-35) = js "-35" := by decide
example : isNumber (js "120") = true := by decide
example : isNumber (js "50%") = false := by decide
example : isNumber (js "-3.5") = true := by decide
example : isNumber (js "1.2.3") = false := by decide
example : Main.mkHiddenName (js "tags[]") = js "tags[]" := by decide
example : Main.mkHiddenName (js "") = js "[]" := by decide
example : Main.applyDim (JsVal.num 120) = some (js "120px") := by decide
example : Main.applyDim (JsVal.str (js "50%")) = some (js "50%") := by decide
example : Main.applyDim (JsVal.num 0) = none := by decide
example :
    (Main.run defSettings (js "tags") []
      [Event.setInput (js "red"), Event.keypress (js "Enter")]).tags.map
      Tag.hiddenName = [js "[]"] := by decide
example :
    (Alt.run defSettings (js "tags")
      [Event.setInput (js "red"), Event.keypress (js "Enter"),
       Event.setInput (js "blue"), Event.keypress (js "Enter")]).tags.map
      Tag.hiddenName = [js "tags[]", js "tags[]"] := by decide
example : Alt.applyDim (JsVal.num 0) = some (js "0px") := by decide

/- Helper lemmas about decimal printing and the numeric regex. -/

theorem digitChar_isDigit (k : Nat) (h : k < 10) : (Nat.digitChar k).isDigit := by
  interval_cases k <;> decide

theorem natToStrAux_spec (fuel : Nat) :
    ∀ n, n < fuel →
      natToStrAux fuel n ≠ [] ∧ ∀ c ∈ natToStrAux fuel n, c.isDigit := by
  induction fuel with
  | zero => intro n h; omega
  | succ fuel ih =>
    intro n _
    by_cases h10 : n < 10
    · refine ⟨by simp [natToStrAux, h10], ?_⟩
      intro c hc
      simp [natToStrAux, h10] at hc
      subst hc
      exact digitChar_isDigit n h10
    · have hdiv : n / 10 < fuel := by
        have hlt : n / 10 < n := Nat.div_lt_self (by omega) (by omega)
        omega
      have hrec := ih (n / 10) hdiv
      refine ⟨by simp [natToStrAux, h10], ?_⟩
      intro c hc
      simp only [natToStrAux, if_neg h10, List.mem_append, List.mem_singleton]
        at hc
      rcases hc with hc | hc
      · exact hrec.2 c hc
      · subst hc
        exact digitChar_isDigit (n % 10) (Nat.mod_lt n (by omega))

theorem natToStr_ne_nil (n : Nat) : natToStr n ≠ [] :=
  (natToStrAux_spec (n + 1) n (Nat.lt_succ_self n)).1

theorem natToStr_digits (n : Nat) : ∀ c ∈ natToStr n, c.isDigit :=
  (natToStrAux_spec (n + 1) n (Nat.lt_succ_self n)).2

theorem isNumber_of_digits (cs : JsStr) (h1 : cs ≠ [])
    (h2 : ∀ c ∈ cs, c.isDigit) : isNumber cs = true := by
  have hhead : ¬ cs.head? = some '-' := by
    cases cs with
    | nil => simp
    | cons c t =>
      have hd := h2 c (by simp)
      simp only [List.head?_cons, Option.some.injEq]
      intro hc
      rw [hc] at hd
      simp [Char.isDigit] at hd
  have hb : (if cs.head? = some '-' then cs.tail else cs) = cs := if_neg hhead
  simp only [isNumber, hb]
  rw [List.takeWhile_eq_self_iff.mpr h2, List.dropWhile_eq_nil_iff.mpr h2]
  simp [h1]

theorem isNumber_neg_of_digits (cs : JsStr) (h1 : cs ≠ [])
    (h2 : ∀ c ∈ cs, c.isDigit) : isNumber ('-' :: cs) = true := by
  have hb : (if ('-' :: cs).head? = some '-' then ('-' :: cs).tail
             else '-' :: cs) = cs := by simp
  simp only [isNumber, hb]
  rw [List.takeWhile_eq_self_iff.mpr h2, List.dropWhile_eq_nil_iff.mpr h2]
  simp [h1]

theorem isNumber_intToStr (i : Int) : isNumber (intToStr i) = true := by
  by_cases h : i < 0
  · simp only [intToStr, if_pos h]
    exact isNumber_neg_of_digits _ (natToStr_ne_nil _) (natToStr_digits _)
  · simp only [intToStr, if_neg h]
    exact isNumber_of_digits _ (natToStr_ne_nil _) (natToStr_digits _)

/- The visibility invariant: the tags container carries display none exactly
while it holds no chip, and the empty display string (visible) otherwise. -/

/-- Invariant relating the display style of the tags container to the chip
list it holds. -/
def displayInv (s : WidgetState) : Prop :=
  s.tagsDisplay = if s.tags.isEmpty then js "none" else []

theorem Main.step_displayInv (st : Settings) (s : WidgetState) (e : Event)
    (h : displayInv s) : displayInv (Main.step st s e) := by
  cases e with
  | keypress k =>
    simp only [step, keypressHandler]
    by_cases hc : k = js "Enter" ∧ jsTrim s.inputValue ≠ []
    · rw [if_pos hc]
      simp [displayInv, addTag]
    · rw [if_neg hc]
      exact h
  | setInput v => simpa [displayInv, step] using h
  | focusEv => simpa [displayInv, step] using h
  | blurEv => simpa [displayInv, step] using h
  | mouseenterEv => simpa [displayInv, step] using h
  | mouseleaveEv => simpa [displayInv, step] using h
  | removeClick i =>
    simp only [step]
    by_cases hi : i < s.tags.length
    · rw [if_pos hi]
      simp only [displayInv, removeHandler]
      by_cases he : (s.tags.eraseIdx i).isEmpty
      · simp [he]
      · have hne : ¬ s.tags.isEmpty := by
          cases hs : s.tags with
          | nil => rw [hs] at hi; simp at hi
          | cons a t => simp
        have hdisp : s.tagsDisplay = [] := by
          simpa [displayInv, hne] using h
        simp [he, hdisp]
    · rw [if_neg hi]
      exact h

theorem Main.foldl_displayInv (st : Settings) (es : List Event) :
    ∀ s : WidgetState, displayInv s →
      displayInv (es.foldl (Main.step st) s) := by
  induction es with
  | nil => intro s h; exact h
  | cons e t ih =>
    intro s h
    exact ih _ (Main.step_displayInv st s e h)

theorem Main.run_displayInv (st : Settings) (srcName srcValue : JsStr)
    (es : List Event) : displayInv (Main.run st srcName srcValue es) :=
  Main.foldl_displayInv st es _ (by simp [displayInv, Main.init])

theorem Main.run_append (st : Settings) (srcName srcValue : JsStr)
    (es : List Event) (e : Event) :
    Main.run st srcName srcValue (es ++ [e])
      = Main.step st (Main.run st srcName srcValue es) e := by
  simp [Main.run, List.foldl_append]

theorem Alt.altStep_displayInv (st : Settings) (s : WidgetState) (e : Event)
    (h : displayInv s) : displayInv (Alt.step st s e) := by
  cases e with
  | keypress k =>
    simp only [step, keypressHandler]
    by_cases hc : k = js "Enter" ∧ jsTrim s.inputValue ≠ []
    · rw [if_pos hc]
      simp [displayInv, addTag]
    · rw [if_neg hc]
      exact h
  | setInput v => simpa [displayInv, step] using h
  | focusEv => simpa [displayInv, step] using h
  | blurEv => simpa [displayInv, step] using h
  | mouseenterEv => simpa [displayInv, step] using h
  | mouseleaveEv => simpa [displayInv, step] using h
  | removeClick i =>
    simp only [step]
    by_cases hi : i < s.tags.length
    · rw [if_pos hi]
      simp only [displayInv, removeHandler]
      by_cases he : (s.tags.eraseIdx i).isEmpty
      · simp [he]
      · have hne : ¬ s.tags.isEmpty := by
          cases hs : s.tags with
          | nil => rw [hs] at hi; simp at hi
          | cons a t => simp
        have hdisp : s.tagsDisplay = [] := by
          simpa [displayInv, hne] using h
        simp [he, hdisp]
    · rw [if_neg hi]
      exact h

theorem Alt.altFoldl_displayInv (st : Settings) (es : List Event) :
    ∀ s : WidgetState, displayInv s →
      displayInv (es.foldl (Alt.step st) s) := by
  induction es with
  | nil => intro s h; exact h
  | cons e t ih =>
    intro s h
    exact ih _ (Alt.altStep_displayInv st s e h)

theorem Alt.altRun_displayInv (st : Settings) (srcName : JsStr)
    (es : List Event) : displayInv (Alt.run st srcName es) :=
  Alt.altFoldl_displayInv st es _ (by simp [displayInv, Alt.init])

theorem Alt.altRun_append (st : Settings) (srcName : JsStr)
    (es : List Event) (e : Event) :
    Alt.run st srcName (es ++ [e])
      = Alt.step st (Alt.run st srcName es) e := by
  simp [Alt.run, List.foldl_append]

/- Claim theorems. -/

/-- C5: in every reachable state of either implementation — after
construction and after any sequence of commits, removals, typing and
focus or mouse events — the tags container carries the display style none
exactly when it holds zero chips, and the empty (visible) display string
otherwise. -/
theorem tag_container_visibility_invariant (st : Settings)
    (srcName srcValue : JsStr) (es : List Event) :
    ((Main.run st srcName srcValue es).tagsDisplay
        = if (Main.run st srcName srcValue es).tags.isEmpty then js "none"
          else [])
    ∧ ((Alt.run st srcName es).tagsDisplay
        = if (Alt.run st srcName es).tags.isEmpty then js "none" else []) :=
  ⟨Main.run_displayInv st srcName srcValue es,
   Alt.altRun_displayInv st srcName es⟩

/-- C8: in both implementations, a focus event on the text field sets the
data-focus attribute of the wrapper to true; a blur event sets it to true
exactly when the debug setting is on or the mouse-enter flag is set, and to
false otherwise; and the mouse-enter and mouse-leave listeners set and clear
that flag. -/
theorem focus_blur_attribute (st : Settings) (srcName srcValue : JsStr)
    (es : List Event) :
    ((Main.run st srcName srcValue (es ++ [Event.focusEv])).dataFocus
        = some (js "true"))
    ∧ ((Main.run st srcName srcValue (es ++ [Event.blurEv])).dataFocus
        = some (if st.debug || (Main.run st srcName srcValue es).mouseEnter
                then js "true" else js "false"))
    ∧ ((Main.run st srcName srcValue
          (es ++ [Event.mouseenterEv])).mouseEnter = true)
    ∧ ((Main.run st srcName srcValue
          (es ++ [Event.mouseleaveEv])).mouseEnter = false)
    ∧ ((Alt.run st srcName (es ++ [Event.focusEv])).dataFocus
        = some (js "true"))
    ∧ ((Alt.run st srcName (es ++ [Event.blurEv])).dataFocus
        = some (if st.debug || (Alt.run st srcName es).mouseEnter
                then js "true" else js "false"))
    ∧ ((Alt.run st srcName (es ++ [Event.mouseenterEv])).mouseEnter = true)
    ∧ ((Alt.run st srcName (es ++ [Event.mouseleaveEv])).mouseEnter
        = false) := by
  simp [Main.run_append, Alt.altRun_append, Main.step, Alt.step]

/-- C9: on a missing text field, the event-attachment step of
PicoTagEditor.js returns early without attaching listeners and without an
error, while the unnamed duplicate implementation calls addEventListener on
the null query result and raises a TypeError; when the field is found, both
attach their listeners. -/
theorem missing_field_guard :
    Main.addEvents false = Except.ok false
    ∧ Alt.addEvent false = Except.error ()
    ∧ Main.addEvents true = Except.ok true
    ∧ Alt.addEvent true = Except.ok true :=
  ⟨rfl, rfl, rfl, rfl⟩

/-- C6: in both implementations, a keypress whose current field value is
empty or whitespace-only leaves the widget state entirely unchanged — no
chip is created, no hidden field is added, and the visibility of the tags
container does not change — whatever the key is, Enter included. -/
theorem empty_commit_rejected (st : Settings) (s : WidgetState) (key : JsStr)
    (h : jsTrim s.inputValue = []) :
    Main.keypressHandler st s key = s ∧ Alt.keypressHandler st s key = s := by
  constructor
  · simp only [Main.keypressHandler]
    rw [if_neg]
    intro hc
    exact hc.2 h
  · simp only [Alt.keypressHandler]
    rw [if_neg]
    intro hc
    exact hc.2 h

/-- C6 witness: a concrete whitespace-only value. After typing three spaces,
pressing Enter leaves the Main widget state unchanged. -/
theorem empty_commit_rejected_witness :
    jsTrim ((Main.run defSettings (js "tags") []
        [Event.setInput (js "   ")]).inputValue) = []
    ∧ Main.keypressHandler defSettings
        (Main.run defSettings (js "tags") [] [Event.setInput (js "   ")])
        (js "Enter")
      = Main.run defSettings (js "tags") [] [Event.setInput (js "   ")] :=
  ⟨by decide,
   (empty_commit_rejected defSettings
     (Main.run defSettings (js "tags") [] [Event.setInput (js "   ")])
     (js "Enter") (by decide)).1⟩

/-- C4: activating the remove control of the chip at position i in any
reachable widget state of either implementation removes exactly that chip,
returns focus to the text field (the focus flag is set and the data-focus
attribute becomes true), and afterwards the tags container is hidden exactly
when no chip remains, so removing one of several chips leaves it visible. -/
theorem remove_tag_interaction (st : Settings) (srcName srcValue : JsStr)
    (es esA : List Event) (i iA : Nat)
    (h : i < (Main.run st srcName srcValue es).tags.length)
    (hA : iA < (Alt.run st srcName esA).tags.length) :
    (((Main.run st srcName srcValue (es ++ [Event.removeClick i])).tags
        = (Main.run st srcName srcValue es).tags.eraseIdx i)
      ∧ (Main.run st srcName srcValue
            (es ++ [Event.removeClick i])).focused = true
      ∧ (Main.run st srcName srcValue
            (es ++ [Event.removeClick i])).dataFocus = some (js "true")
      ∧ ((Main.run st srcName srcValue
            (es ++ [Event.removeClick i])).tagsDisplay = js "none"
          ↔ (Main.run st srcName srcValue
              (es ++ [Event.removeClick i])).tags = []))
    ∧ (((Alt.run st srcName (esA ++ [Event.removeClick iA])).tags
        = (Alt.run st srcName esA).tags.eraseIdx iA)
      ∧ (Alt.run st srcName (esA ++ [Event.removeClick iA])).focused = true
      ∧ (Alt.run st srcName
            (esA ++ [Event.removeClick iA])).dataFocus = some (js "true")
      ∧ ((Alt.run st srcName
            (esA ++ [Event.removeClick iA])).tagsDisplay = js "none"
          ↔ (Alt.run st srcName
              (esA ++ [Event.removeClick iA])).tags = [])) := by
  constructor
  · have hinv := Main.run_displayInv st srcName srcValue es
    rw [Main.run_append]
    set s := Main.run st srcName srcValue es with hs
    simp only [Main.step, if_pos h, Main.removeHandler]
    refine ⟨by trivial, by trivial, by trivial, ?_⟩
    by_cases he : (s.tags.eraseIdx i).isEmpty
    · rw [if_pos he]
      have he2 : s.tags.eraseIdx i = [] := by
        cases hl : s.tags.eraseIdx i with
        | nil => rfl
        | cons a t => rw [hl] at he; simp at he
      simp [he2]
    · rw [if_neg he]
      have hne : ¬ s.tags.isEmpty := by
        cases hl : s.tags with
        | nil => rw [hl] at h; simp at h
        | cons a t => simp
      have hdisp : s.tagsDisplay = [] := by
        simpa [displayInv, hne] using hinv
      rw [hdisp]
      constructor
      · intro hh
        exact absurd hh.symm (by decide)
      · intro hh
        rw [hh] at he
        simp at he
  · have hinv := Alt.altRun_displayInv st srcName esA
    rw [Alt.altRun_append]
    set s := Alt.run st srcName esA with hs
    simp only [Alt.step, if_pos hA, Alt.removeHandler]
    refine ⟨by trivial, by trivial, by trivial, ?_⟩
    by_cases he : (s.tags.eraseIdx iA).isEmpty
    · rw [if_pos he]
      have he2 : s.tags.eraseIdx iA = [] := by
        cases hl : s.tags.eraseIdx iA with
        | nil => rfl
        | cons a t => rw [hl] at he; simp at he
      simp [he2]
    · rw [if_neg he]
      have hne : ¬ s.tags.isEmpty := by
        cases hl : s.tags with
        | nil => rw [hl] at hA; simp at hA
        | cons a t => simp
      have hdisp : s.tagsDisplay = [] := by
        simpa [displayInv, hne] using hinv
      rw [hdisp]
      constructor
      · intro hh
        exact absurd hh.symm (by decide)
      · intro hh
        rw [hh] at he
        simp at he

/-- C4 witness: each widget holding one committed chip; removing it yields an
empty chip list, the focus flag set, the data-focus attribute true, and the
container hidden, in both implementations. -/
theorem remove_tag_interaction_witness :
    (0 < (Main.run defSettings (js "tags") []
        [Event.setInput (js "red"), Event.keypress (js "Enter")]).tags.length
      ∧ 0 < (Alt.run defSettings (js "tags")
        [Event.setInput (js "red"),
         Event.keypress (js "Enter")]).tags.length)
    ∧ ((Main.run defSettings (js "tags") []
          ([Event.setInput (js "red"), Event.keypress (js "Enter")]
            ++ [Event.removeClick 0])).tags
        = (Main.run defSettings (js "tags") []
            [Event.setInput (js "red"),
             Event.keypress (js "Enter")]).tags.eraseIdx 0)
    ∧ ((Main.run defSettings (js "tags") []
          ([Event.setInput (js "red"), Event.keypress (js "Enter")]
            ++ [Event.removeClick 0])).tagsDisplay = js "none"
        ↔ (Main.run defSettings (js "tags") []
            ([Event.setInput (js "red"), Event.keypress (js "Enter")]
              ++ [Event.removeClick 0])).tags = [])
    ∧ ((Alt.run defSettings (js "tags")
          ([Event.setInput (js "red"), Event.keypress (js "Enter")]
            ++ [Event.removeClick 0])).tagsDisplay = js "none"
        ↔ (Alt.run defSettings (js "tags")
            ([Event.setInput (js "red"), Event.keypress (js "Enter")]
              ++ [Event.removeClick 0])).tags = []) := by
  have h := remove_tag_interaction defSettings (js "tags") []
    [Event.setInput (js "red"), Event.keypress (js "Enter")]
    [Event.setInput (js "red"), Event.keypress (js "Enter")] 0 0
    (by decide) (by decide)
  exact ⟨⟨by decide, by decide⟩, h.1.1, h.1.2.2.2, h.2.2.2.2⟩

/-- C10: the remove control of the chip at position i removes exactly that
chip — and with it, its hidden input, which the chip node contains — leaving
every chip before i and after i untouched with its display text and hidden
name and value, and leaving the current text-field value unchanged. -/
theorem remove_frame_effect (st : Settings) (srcName srcValue : JsStr)
    (es esA : List Event) (i iA : Nat)
    (h : i < (Main.run st srcName srcValue es).tags.length)
    (hA : iA < (Alt.run st srcName esA).tags.length) :
    (((Main.run st srcName srcValue (es ++ [Event.removeClick i])).tags
        = (Main.run st srcName srcValue es).tags.take i
          ++ (Main.run st srcName srcValue es).tags.drop (i + 1))
      ∧ ((Main.run st srcName srcValue
            (es ++ [Event.removeClick i])).inputValue
          = (Main.run st srcName srcValue es).inputValue))
    ∧ (((Alt.run st srcName (esA ++ [Event.removeClick iA])).tags
        = (Alt.run st srcName esA).tags.take iA
          ++ (Alt.run st srcName esA).tags.drop (iA + 1))
      ∧ ((Alt.run st srcName (esA ++ [Event.removeClick iA])).inputValue
          = (Alt.run st srcName esA).inputValue)) := by
  constructor
  · rw [Main.run_append]
    simp only [Main.step, if_pos h, Main.removeHandler]
    exact ⟨List.eraseIdx_eq_take_drop_succ _ _, by trivial⟩
  · rw [Alt.altRun_append]
    simp only [Alt.step, if_pos hA, Alt.removeHandler]
    exact ⟨List.eraseIdx_eq_take_drop_succ _ _, by trivial⟩

/-- C10 witness: with two committed chips red and blue, removing the chip at
position 0 leaves exactly the blue chip with its hidden field and keeps the
text-field value. -/
theorem remove_frame_effect_witness :
    (0 < (Main.run defSettings (js "tags") []
        [Event.setInput (js "red"), Event.keypress (js "Enter"),
         Event.setInput (js "blue"),
         Event.keypress (js "Enter")]).tags.length
      ∧ 0 < (Alt.run defSettings (js "tags")
        [Event.setInput (js "red"), Event.keypress (js "Enter"),
         Event.setInput (js "blue"),
         Event.keypress (js "Enter")]).tags.length)
    ∧ (((Main.run defSettings (js "tags") []
          ([Event.setInput (js "red"), Event.keypress (js "Enter"),
            Event.setInput (js "blue"), Event.keypress (js "Enter")]
            ++ [Event.removeClick 0])).tags
        = (Main.run defSettings (js "tags") []
            [Event.setInput (js "red"), Event.keypress (js "Enter"),
             Event.setInput (js "blue"),
             Event.keypress (js "Enter")]).tags.take 0
          ++ (Main.run defSettings (js "tags") []
              [Event.setInput (js "red"), Event.keypress (js "Enter"),
               Event.setInput (js "blue"),
               Event.keypress (js "Enter")]).tags.drop (0 + 1))
      ∧ ((Main.run defSettings (js "tags") []
            ([Event.setInput (js "red"), Event.keypress (js "Enter"),
              Event.setInput (js "blue"), Event.keypress (js "Enter")]
              ++ [Event.removeClick 0])).inputValue
          = (Main.run defSettings (js "tags") []
              [Event.setInput (js "red"), Event.keypress (js "Enter"),
               Event.setInput (js "blue"),
               Event.keypress (js "Enter")]).inputValue)) :=
  ⟨⟨by decide, by decide⟩,
   (remove_frame_effect defSettings (js "tags") []
     [Event.setInput (js "red"), Event.keypress (js "Enter"),
      Event.setInput (js "blue"), Event.keypress (js "Enter")]
     [Event.setInput (js "red"), Event.keypress (js "Enter"),
      Event.setInput (js "blue"), Event.keypress (js "Enter")] 0 0
     (by decide) (by decide)).1⟩

/-- C1 counterexample: the unnamed duplicate implementation never trims the
committed text, even with the trimInput setting on. Pressing Enter with the
value space-red-space commits a chip whose text keeps the surrounding
whitespace, while the claim requires the trimmed text red there. -/
theorem commit_on_enter_cex :
    ((Alt.run { defSettings with trimInput := true } (js "tags")
        [Event.setInput (js " red "), Event.keypress (js "Enter")]).tags.map
        Tag.text = [js " red "])
    ∧ jsTrim (js " red ") = js "red"
    ∧ js " red " ≠ js "red" := by decide

/-- C1 (amended): for every Enter keypress whose current value does not trim
to the empty string, the PicoTagEditor.js handler appends exactly one chip
whose display text and hidden value are the field value, trimmed exactly when
the trimInput setting is on, then clears the field and shows the container.
The handler of the unnamed duplicate implementation appends exactly one chip
carrying the raw untrimmed field value whatever the settings say, then clears
the field. -/
theorem commit_on_enter_amended (st : Settings) (sM sA : WidgetState)
    (hM : jsTrim sM.inputValue ≠ []) (hA : jsTrim sA.inputValue ≠ []) :
    ((Main.keypressHandler st sM (js "Enter")).tags
        = sM.tags ++
          [{ text := if st.trimInput then jsTrim sM.inputValue
                     else sM.inputValue,
             hiddenName := Main.mkHiddenName sM.name,
             hiddenValue := if st.trimInput then jsTrim sM.inputValue
                            else sM.inputValue }]
      ∧ (Main.keypressHandler st sM (js "Enter")).inputValue = []
      ∧ (Main.keypressHandler st sM (js "Enter")).tagsDisplay = [])
    ∧ ((Alt.keypressHandler st sA (js "Enter")).tags
        = sA.tags ++
          [{ text := sA.inputValue, hiddenName := sA.name ++ js "[]",
             hiddenValue := sA.inputValue }]
      ∧ (Alt.keypressHandler st sA (js "Enter")).inputValue = []
      ∧ (Alt.keypressHandler st sA (js "Enter")).tagsDisplay = []) := by
  constructor
  · simp only [Main.keypressHandler]
    rw [if_pos ⟨by trivial, hM⟩]
    simp [Main.addTag]
  · simp only [Alt.keypressHandler]
    rw [if_pos ⟨by trivial, hA⟩]
    simp [Alt.addTag]

/-- C1 witness: committing the value space-red-space with trimInput on in the
Main implementation yields one chip with the trimmed text red and value red
and clears the field. -/
theorem commit_on_enter_amended_witness :
    jsTrim ((Main.run { defSettings with trimInput := true } (js "tags") []
        [Event.setInput (js " red ")]).inputValue) ≠ []
    ∧ (Main.keypressHandler { defSettings with trimInput := true }
        (Main.run { defSettings with trimInput := true } (js "tags") []
          [Event.setInput (js " red ")]) (js "Enter")).tags.map Tag.text
      = [js "red"]
    ∧ (Main.keypressHandler { defSettings with trimInput := true }
        (Main.run { defSettings with trimInput := true } (js "tags") []
          [Event.setInput (js " red ")]) (js "Enter")).tags.map
        Tag.hiddenValue
      = [js "red"]
    ∧ (Main.keypressHandler { defSettings with trimInput := true }
        (Main.run { defSettings with trimInput := true } (js "tags") []
          [Event.setInput (js " red ")]) (js "Enter")).inputValue = [] := by
  refine ⟨by decide, ?_, ?_, ?_⟩
  · have h := commit_on_enter_amended { defSettings with trimInput := true }
      (Main.run { defSettings with trimInput := true } (js "tags") []
        [Event.setInput (js " red ")])
      (Alt.run defSettings (js "tags") [Event.setInput (js " red ")])
      (by decide) (by decide)
    rw [h.1.1]
    decide
  · have h := commit_on_enter_amended { defSettings with trimInput := true }
      (Main.run { defSettings with trimInput := true } (js "tags") []
        [Event.setInput (js " red ")])
      (Alt.run defSettings (js "tags") [Event.setInput (js " red ")])
      (by decide) (by decide)
    rw [h.1.1]
    decide
  · have h := commit_on_enter_amended { defSettings with trimInput := true }
      (Main.run { defSettings with trimInput := true } (js "tags") []
        [Event.setInput (js " red ")])
      (Alt.run defSettings (js "tags") [Event.setInput (js " red ")])
      (by decide) (by decide)
    exact h.1.2.1

/-- C2: evaluation at the failing input. Over a source input named tags, the
unnamed duplicate implementation commits red and blue into hidden fields both
named tags-bracket-pair with values red and blue, as the claim states; but
PicoTagEditor.js names both hidden fields just the bracket pair, because its
init never copies the source name attribute into this.name. -/
theorem hidden_field_naming_eval :
    ((Alt.run defSettings (js "tags")
        [Event.setInput (js "red"), Event.keypress (js "Enter"),
         Event.setInput (js "blue"), Event.keypress (js "Enter")]).tags.map
        Tag.hiddenName = [js "tags[]", js "tags[]"])
    ∧ ((Alt.run defSettings (js "tags")
        [Event.setInput (js "red"), Event.keypress (js "Enter"),
         Event.setInput (js "blue"), Event.keypress (js "Enter")]).tags.map
        Tag.hiddenValue = [js "red", js "blue"])
    ∧ ((Main.run defSettings (js "tags") (js "")
        [Event.setInput (js "red"), Event.keypress (js "Enter"),
         Event.setInput (js "blue"), Event.keypress (js "Enter")]).tags.map
        Tag.hiddenName = [js "[]", js "[]"])
    ∧ js "[]" ≠ js "tags[]" := by decide

/-- C3 counterexample: the unnamed duplicate implementation appends the
bracket pair unconditionally, so with source name tags-bracket-pair the
hidden field of a committed tag is double-suffixed instead of staying as
it was. -/
theorem tag_name_suffix_cex :
    ((Alt.run defSettings (js "tags[]")
        [Event.setInput (js "red"), Event.keypress (js "Enter")]).tags.map
        Tag.hiddenName = [js "tags[][]"])
    ∧ js "tags[][]" ≠ js "tags[]" := by decide

/-- C3 (amended): in PicoTagEditor.js, addTag appends the bracket pair to the
hidden-field name exactly when the name contains no opening bracket — so a
name that already ends in the bracket pair, such as tags-bracket-pair, is
kept unchanged and never double-suffixed. In the unnamed duplicate
implementation, addTag appends the bracket pair unconditionally. -/
theorem tag_name_suffix_amended (sM sA : WidgetState) (nm text nm2 : JsStr)
    (h2 : (js "[]").isSuffixOf nm2) :
    ((Main.addTag sM nm text).tags
        = sM.tags ++
          [{ text := text,
             hiddenName := if nm.contains '[' then nm else nm ++ js "[]",
             hiddenValue := text }])
    ∧ Main.mkHiddenName nm2 = nm2
    ∧ Main.mkHiddenName (js "tags[]") = js "tags[]"
    ∧ ((Alt.addTag sA nm text).tags
        = sA.tags ++
          [{ text := text, hiddenName := nm ++ js "[]",
             hiddenValue := text }]) := by
  refine ⟨by simp [Main.addTag, Main.mkHiddenName], ?_, by decide,
    by simp [Alt.addTag]⟩
  have hsuf : js "[]" <:+ nm2 := by simpa using h2
  obtain ⟨t, ht⟩ := hsuf
  have hmem : '[' ∈ nm2 := by
    rw [← ht]
    exact List.mem_append_right t (by decide)
  have hcon : nm2.contains '[' = true := List.elem_eq_true_of_mem hmem
  exact if_pos hcon

/-- C3 witness: the source name tags-bracket-pair ends in the bracket pair,
and the Main implementation keeps the hidden-field name unchanged for it. -/
theorem tag_name_suffix_amended_witness :
    ((js "[]").isSuffixOf (js "tags[]") = true)
    ∧ Main.mkHiddenName (js "tags[]") = js "tags[]" :=
  ⟨by decide,
   (tag_name_suffix_amended (Main.init defSettings [] [])
     (Alt.init defSettings []) (js "tags") (js "red") (js "tags[]")
     (by decide)).2.1⟩

/-- C7 counterexample: a string dimension value is not always passed through
unchanged. The string 120 matches the numeric pattern, so the Main
implementation appends px to it instead of passing it through. -/
theorem dimension_config_cex :
    Main.applyDim (JsVal.str (js "120")) = some (js "120px")
    ∧ js "120px" ≠ js "120" := by decide

/-- C7 (amended): for a truthy dimension setting, the Main implementation
appends px exactly when the string form of the value matches the decimal
number pattern: every nonzero integer value yields its decimal form plus px,
a nonempty string yields itself plus px when it matches the pattern and is
passed through unchanged otherwise. Falsy settings — the number 0, the empty
string, or an unset option — leave the style unset. The init function applies
exactly this rule to width, height and maxHeight. -/
theorem dimension_config_amended (st : Settings) (srcName srcValue : JsStr)
    (i : Int) (scs : JsStr) (hi : i ≠ 0) (hs : scs ≠ []) :
    Main.applyDim (JsVal.num i) = some (intToStr i ++ js "px")
    ∧ Main.applyDim (JsVal.str scs)
        = some (if isNumber scs then scs ++ js "px" else scs)
    ∧ Main.applyDim (JsVal.num 0) = none
    ∧ Main.applyDim (JsVal.str []) = none
    ∧ Main.applyDim JsVal.undef = none
    ∧ (Main.init st srcName srcValue).styleWidth = Main.applyDim st.width
    ∧ (Main.init st srcName srcValue).styleHeight = Main.applyDim st.height
    ∧ (Main.init st srcName srcValue).styleMaxHeight
        = Main.applyDim st.maxHeight := by
  refine ⟨?_, ?_, by decide, by decide, by decide, rfl, rfl, rfl⟩
  · have htruthy : (JsVal.num i).truthy = true := by
      simp [JsVal.truthy, hi]
    simp only [Main.applyDim, htruthy, if_true, JsVal.toStr,
      isNumber_intToStr i, if_pos]
  · have htruthy : (JsVal.str scs).truthy = true := by
      simp [JsVal.truthy, hs]
    simp only [Main.applyDim, htruthy, if_true, JsVal.toStr]

/-- C7 witness: the numeric value 120 yields the style 120px and the
non-numeric string 50 percent passes through unchanged. -/
theorem dimension_config_witness :
    ((120 : Int) ≠ 0 ∧ js "50%" ≠ [])
    ∧ Main.applyDim (JsVal.num 120) = some (js "120px")
    ∧ Main.applyDim (JsVal.str (js "50%")) = some (js "50%") := by
  refine ⟨⟨by decide, by decide⟩, ?_, ?_⟩
  · exact (dimension_config_amended defSettings [] [] 120 (js "50%")
      (by decide) (by decide)).1.trans (by decide)
  · exact (dimension_config_amended defSettings [] [] 120 (js "50%")
      (by decide) (by decide)).2.1.trans (by decide)
